import Mathlib

/-
Verification development for the OUTCAR streaming parser module
(for_VASP6_vasp_outcar_parsers.py) of the DFT-VASP repository.

Lines of the log are modelled as lists of characters; Python dictionaries
of parsed properties are modelled as association lists from `String` keys
to a dynamic value type `Val`; Python exceptions (ParseError, ValueError,
IndexError, KeyError, AssertionError) are modelled by the error side of
`Except String`.
-/

set_option maxRecDepth 10000
set_option linter.unusedVariables false
set_option linter.unreachableTactic false
set_option linter.unusedTactic false

namespace VaspOutcar

/-- A line of the OUTCAR log, as a list of characters. -/
abbrev Line := List Char

/-- Boolean test that the first list is an initial segment of the second. -/
def leadsWith : List Char → List Char → Bool
  | [], _ => true
  | _ :: _, [] => false
  | a :: as, b :: bs => a == b && leadsWith as bs

/-- Python substring containment `needle in hay`. -/
def hasSub (needle : List Char) : List Char → Bool
  | [] => leadsWith needle []
  | c :: t => leadsWith needle (c :: t) || hasSub needle t

/-- Auxiliary accumulator for whitespace splitting; `acc` holds the
current token reversed. -/
def splitWSAux : List Char → List Char → List (List Char)
  | acc, [] => if acc.isEmpty then [] else [acc.reverse]
  | acc, c :: rest =>
    if c.isWhitespace then
      if acc.isEmpty then splitWSAux [] rest
      else acc.reverse :: splitWSAux [] rest
    else splitWSAux (c :: acc) rest

/-- Python `str.split()` with no arguments: split on runs of whitespace,
discarding empty tokens. Since leading and trailing whitespace is
discarded, `line.strip().split()` from the source tokenizes identically. -/
def pySplit (l : Line) : List (List Char) := splitWSAux [] l

/-- Value of a list of decimal digit characters. -/
def digitsToNat (s : List Char) : ℕ :=
  s.foldl (fun acc c => 10 * acc + (c.toNat - '0'.toNat)) 0

/-- Split a leading run of decimal digits from its remainder. -/
def takeDigits : List Char → List Char × List Char
  | [] => ([], [])
  | c :: rest =>
    if c.isDigit then
      let (d, r) := takeDigits rest
      (c :: d, r)
    else ([], c :: rest)

/-- Consume an optional leading sign; returns (isNegative, remainder). -/
def parseSign : List Char → Bool × List Char
  | '-' :: rest => (true, rest)
  | '+' :: rest => (false, rest)
  | s => (false, s)

/-- Parse an optional exponent suffix (`e`/`E`, sign, digits); rejects
any other trailing characters, as Python float() does. Returns the
exponent sign and magnitude ((false, 0) when the suffix is empty). -/
def parseExpVal : List Char → Option (Bool × ℕ)
  | [] => some (false, 0)
  | c :: rest =>
    if c == 'e' || c == 'E' then
      let (negE, r1) := parseSign rest
      let (ed, r2) := takeDigits r1
      if ed.isEmpty || !r2.isEmpty then none
      else some (negE, digitsToNat ed)
    else none

/-- Model of Python `float(token)` on the decimal and scientific forms
occurring in OUTCAR numeric fields: optional sign, integer part, optional
fractional part, optional exponent. Returns `none` when the token is not
such a numeral (Python raises ValueError). The value is assembled as an
exact rational `mkRat (sign · digits · 10^maxExp) (10^fracLen · 10^minExp)`. -/
def parseFloat? (s : List Char) : Option ℚ :=
  let (neg, s1) := parseSign s
  let (ip, s2) := takeDigits s1
  let core? : Option (ℕ × ℕ × List Char) :=
    match s2 with
    | '.' :: s3 =>
      let (fp, s4) := takeDigits s3
      if ip.isEmpty && fp.isEmpty then none
      else some (digitsToNat (ip ++ fp), fp.length, s4)
    | _ => if ip.isEmpty then none else some (digitsToNat ip, 0, s2)
  match core? with
  | none => none
  | some (n, flen, rest) =>
    match parseExpVal rest with
    | none => none
    | some (negE, e) =>
      let num : ℤ := if neg then -(n : ℤ) else (n : ℤ)
      if negE then some (mkRat num (10 ^ flen * 10 ^ e))
      else some (mkRat (num * 10 ^ e) (10 ^ flen))

/-- Model of Python `int(token)`: optional sign then decimal digits. -/
def parseInt? (s : List Char) : Option ℤ :=
  let (neg, s1) := parseSign s
  let (d, r) := takeDigits s1
  if d.isEmpty || !r.isEmpty then none
  else if neg then some (-(digitsToNat d : ℤ))
  else some ((digitsToNat d : ℤ))

/-- Model of `[float(a) for a in toks]`: all tokens must parse, otherwise
the comprehension raises ValueError (modelled as `none`). -/
def floats? : List (List Char) → Option (List ℚ)
  | [] => some []
  | t :: rest =>
    match parseFloat? t, floats? rest with
    | some q, some qs => some (q :: qs)
    | _, _ => none

/-- Whether the line matches the regex `[0-9]-[0-9]` somewhere
(re.search in `_check_line`). -/
def hasDDD : List Char → Bool
  | a :: '-' :: b :: rest => (a.isDigit && b.isDigit) || hasDDD ('-' :: b :: rest)
  | _ :: rest => hasDDD rest
  | [] => false

/-- Model of the regex substitution in the source repair function: scan
left to right; at each digit-dash-digit occurrence insert a space before
the dash and resume scanning after the second digit (non-overlapping
matches, as re.sub performs). -/
def subDashDigits : List Char → List Char
  | a :: '-' :: b :: rest =>
    if a.isDigit && b.isDigit then a :: ' ' :: '-' :: b :: subDashDigits rest
    else a :: subDashDigits ('-' :: b :: rest)
  | a :: rest => a :: subDashDigits rest
  | [] => []

/-- Model of the source `_check_line`: repair OUTCAR numeric formatting
where a negative number is concatenated into its left neighbour. -/
def check_line (l : Line) : Line :=
  if hasDDD l then subDashDigits l else l

/-- The SCF-convergence delimiter `_OUTCAR_SCF_DELIM` marking the end of
an ionic step. -/
def scfDelim : List Char := "FREE ENERGIE OF THE ION-ELECTRON SYSTEM".data

/-- The header-terminating marker searched for by `build_header`. -/
def iterMarker : List Char := "Iteration".data

/-- Whether a line contains the SCF delimiter. -/
def hasSCF (l : Line) : Bool := hasSub scfDelim l

/-- Whether a line contains the iteration marker. -/
def hasIter (l : Line) : Bool := hasSub iterMarker l

/-- Model of the source `build_header`: collect lines up to and including
the first line containing the iteration marker, also returning the
remainder of the stream; if the stream is exhausted first, raise
ParseError (Incomplete OUTCAR). -/
def build_header : List Line → Except String (List Line × List Line)
  | [] => .error "Incomplete OUTCAR"
  | l :: rest =>
    if hasIter l then .ok ([l], rest)
    else
      match build_header rest with
      | .error e => .error e
      | .ok (hs, r) => .ok (l :: hs, r)

/-- Scan for the first line containing the SCF delimiter, returning the
collected lines (delimiter line included) and the remainder; `none` when
the stream is exhausted first (StopIteration inside `build_chunk`). -/
def scanChunk : List Line → Option (List Line × List Line)
  | [] => none
  | l :: rest =>
    if hasSCF l then some ([l], rest)
    else
      match scanChunk rest with
      | none => none
      | some (c, r) => some (l :: c, r)

/-- Model of the source `build_chunk`: lines up to the SCF delimiter plus
four continuation lines for the energy block; `none` models the
StopIteration escaping when the stream runs out at any point. -/
def build_chunk (fd : List Line) : Option (List Line × List Line) :=
  match scanChunk fd with
  | none => none
  | some (c, r) =>
    if 4 ≤ r.length then some (c ++ r.take 4, r.drop 4) else none

theorem scanChunk_spec : ∀ (fd c r : List Line), scanChunk fd = some (c, r) →
    c.length + r.length = fd.length ∧ 0 < c.length := by
  intro fd
  induction fd with
  | nil => intro c r h; simp [scanChunk] at h
  | cons l rest ih =>
    intro c r h
    by_cases hl : hasSCF l = true
    · simp [scanChunk, hl] at h
      obtain ⟨hc, hr⟩ := h
      subst hc; subst hr
      constructor
      · simp; omega
      · simp
    · simp [scanChunk, hl] at h
      cases hs : scanChunk rest with
      | none => rw [hs] at h; simp at h
      | some p =>
        obtain ⟨c', r'⟩ := p
        rw [hs] at h
        simp at h
        obtain ⟨hc, hr⟩ := h
        subst hc; subst hr
        obtain ⟨h1, h2⟩ := ih c' r' hs
        constructor
        · simp [← h1]; ring
        · simp

theorem build_chunk_rest_length {fd c r : List Line}
    (h : build_chunk fd = some (c, r)) : r.length < fd.length := by
  unfold build_chunk at h
  cases hs : scanChunk fd with
  | none => rw [hs] at h; simp at h
  | some p =>
    obtain ⟨c0, r0⟩ := p
    rw [hs] at h
    obtain ⟨hlen, hpos⟩ := scanChunk_spec fd c0 r0 hs
    by_cases h4 : 4 ≤ r0.length
    · simp [h4] at h
      obtain ⟨_, hr⟩ := h
      subst hr
      simp
      omega
    · simp [h4] at h

/-- Model of the chunk-yielding loop in the source `outcarchunks`:
repeatedly call `build_chunk`, stopping silently at StopIteration. -/
def outcarchunksFrom (fd : List Line) : List (List Line) :=
  match h : build_chunk fd with
  | none => []
  | some (c, r) => c :: outcarchunksFrom r
termination_by fd.length
decreasing_by exact build_chunk_rest_length h

/-- One k-point as assembled by the Kpoints chunk extractor
(SinglePointKPoint with weight, spin channel, k-point index, eigenvalues
and occupations). -/
structure SPKPoint where
  weight : ℚ
  spin : ℕ
  ikpt : ℤ
  eps : List ℚ
  f : List ℚ
deriving DecidableEq

/-- Representation of a 3-vector of floats. -/
abbrev Vec3 := ℚ × ℚ × ℚ

/-- Dynamic values stored in the parsed-property dictionaries (Python
dict values). Python integers are modelled as ℤ. -/
inductive Val where
  | intV (n : ℤ)
  | boolV (b : Bool)
  | ratsV (l : List ℚ)
  | intsV (l : List ℤ)
  | vecsV (l : List Vec3)
  | strsV (l : List String)
  | kptsV (l : List SPKPoint)
  | noneV
deriving DecidableEq

/-- A Python dict with string keys, modelled as an association list;
lookups find the first binding. -/
abbrev Dict := List (String × Val)

/-- Dict lookup (Python `d[key]` yielding None on absence is modelled by
`Option`). -/
def dictGet : Dict → String → Option Val
  | [], _ => none
  | (k, v) :: rest, key => if k = key then some v else dictGet rest key

/-- Dict pop: remove the first binding of `key`, returning its value and
the remaining dict; `none` models a KeyError. -/
def dictPop : Dict → String → Option (Val × Dict)
  | [], _ => none
  | (k, v) :: rest, key =>
    if k = key then some (v, rest)
    else
      match dictPop rest key with
      | none => none
      | some (v', r) => some (v', (k, v) :: r)

theorem dictPop_of_get_none {d : Dict} {key : String}
    (h : dictGet d key = none) : dictPop d key = none := by
  induction d with
  | nil => rfl
  | cons p rest ih =>
    obtain ⟨k, v⟩ := p
    by_cases hk : k = key
    · simp [dictGet, hk] at h
    · simp [dictGet, hk] at h
      simp [dictPop, hk, ih h]

theorem dictPop_of_get_some {d : Dict} {key : String} {v : Val}
    (h : dictGet d key = some v) :
    ∃ r, dictPop d key = some (v, r) ∧
      ∀ k', k' ≠ key → dictGet r k' = dictGet d k' := by
  induction d with
  | nil => simp [dictGet] at h
  | cons p rest ih =>
    obtain ⟨k, w⟩ := p
    by_cases hk : k = key
    · subst hk
      simp [dictGet] at h
      subst h
      refine ⟨rest, by simp [dictPop], ?_⟩
      intro k' hk'
      simp [dictGet, Ne.symm hk']
    · simp [dictGet, hk] at h
      obtain ⟨r, hr, hpres⟩ := ih h
      refine ⟨(k, w) :: r, by simp [dictPop, hk, hr], ?_⟩
      intro k' hk'
      simp only [dictGet]
      by_cases hkk : k = k'
      · simp [hkk]
      · simp [hkk, hpres k' hk']

/-- Coerce a dynamic value to a Python int (TypeError otherwise; such a
mismatch cannot arise from the parsers modelled here). -/
def Val.asInt : Val → Except String ℤ
  | .intV n => .ok n
  | _ => .error "TypeError: expected int"

/-- Coerce a dynamic value to a bool. -/
def Val.asBool : Val → Except String Bool
  | .boolV b => .ok b
  | _ => .error "TypeError: expected bool"

/-- Coerce a dynamic value to a list of floats. -/
def Val.asRats : Val → Except String (List ℚ)
  | .ratsV l => .ok l
  | _ => .error "TypeError: expected float array"

/-- Model of `VaspChunkPropertyParser.get_from_header`: fetch a key from
the header dict, raising ParseError when absent. -/
def get_from_header (header : Dict) (key : String) : Except String Val :=
  match dictGet header key with
  | some v => .ok v
  | none => .error ("Parser requested unavailable key " ++ key ++ " from header")

/-- Model of `VaspPropertyParser.get_line`: fetch `lines[cursor]` and
apply the numeric repair; `none` index models IndexError. -/
def get_line (cursor : ℕ) (lines : List Line) : Except String Line :=
  match lines[cursor]? with
  | some l => .ok (check_line l)
  | none => .error "IndexError: line out of range"

/-- Raw `lines[cursor]` access without the numeric repair. -/
def raw_line (cursor : ℕ) (lines : List Line) : Except String Line :=
  match lines[cursor]? with
  | some l => .ok l
  | none => .error "IndexError: line out of range"

/-- Model of `SpeciesTypes.get_species`: keep the first half of the
accumulated species list, the split index rounded up on odd length
(`sum(divmod(len, 2))`). -/
def SpeciesTypes.get_species (species : List String) : List String :=
  species.take (species.length / 2 + species.length % 2)

/-- Model of `convert_vasp_outcar_stress`, parameterized by the unit
constant `ase.units.GPa`: negate the six components, reorder by the
index map [0,1,2,4,5,3], scale by 0.1·GPa; any other shape raises
ValueError. -/
def convert_vasp_outcar_stress (gpa : ℚ) (stress : List ℚ) : Except String (List ℚ) :=
  let neg := stress.map Neg.neg
  match neg with
  | [t0, t1, t2, t3, t4, t5] =>
    .ok ([t0, t1, t2, t4, t5, t3].map (fun x => x * (1 / 10) * gpa))
  | _ => .error "Stress has the wrong shape. Expected (6,)."

/-- Model of `Stress.parse`: read the (repaired) line at the cursor, take
the tokens after the first two, and parse them as floats. A float
ValueError is caught: the stress field becomes None and a warning is
emitted (the Bool component records the warning). The shape ValueError
raised by `convert_vasp_outcar_stress` in the `else` branch is NOT caught
by the `except ValueError` around the float conversion, so it escapes as
an exception. -/
def Stress.parse (gpa : ℚ) (cursor : ℕ) (lines : List Line) :
    Except String (Option (List ℚ) × Bool) :=
  match get_line cursor lines with
  | .error e => .error e
  | .ok line =>
    match floats? ((pySplit line).drop 2) with
    | none => .ok (none, true)
    | some stress =>
      match convert_vasp_outcar_stress gpa stress with
      | .ok r => .ok (some r, false)
      | .error e => .error e

/-- The per-atom loop of `PositionsAndForces.parse`: for each of the
`n` remaining atoms (atom index `i`), read the repaired line at
`cursor + i + 2` (nskip = 2), parse all its tokens as floats, and take
the first three as the position and the next three as the force. Fewer
than six floats on a row cannot fill the numpy row (broadcast error). -/
def posForceRows (lines : List Line) (cursor : ℕ) :
    ℕ → ℕ → Except String (List Vec3 × List Vec3)
  | _, 0 => .ok ([], [])
  | i, n + 1 =>
    match get_line (cursor + i + 2) lines with
    | .error e => .error e
    | .ok line =>
      match floats? (pySplit line) with
      | none => .error "ValueError: could not convert string to float"
      | some fs =>
        match fs with
        | p0 :: p1 :: p2 :: f0 :: f1 :: f2 :: _ =>
          match posForceRows lines cursor (i + 1) n with
          | .error e => .error e
          | .ok (ps, qs) => .ok ((p0, p1, p2) :: ps, (f0, f1, f2) :: qs)
        | _ => .error "could not broadcast input array"

/-- Model of `PositionsAndForces.parse`: request `natoms` from the header
(ParseError when absent), then read one positions+forces row per atom. -/
def PositionsAndForces.parse (header : Dict) (cursor : ℕ) (lines : List Line) :
    Except String (List Vec3 × List Vec3) :=
  match get_from_header header "natoms" with
  | .error e => .error e
  | .ok v =>
    match v.asInt with
    | .error e => .error e
    | .ok natoms => posForceRows lines cursor 0 natoms.toNat

/-- The per-band loop of `Kpoints.parse`: read `n` band lines starting at
`cursor` (raw access, no numeric repair in the source here); the line is
split and `parts[1:]` must unpack into exactly an (eigenvalue,
occupation) float pair. The cursor advances by one per band except after
the last band. Returns eigenvalues, occupations and the final cursor. -/
def bandRows (lines : List Line) : ℕ → ℕ → Except String (List ℚ × List ℚ × ℕ)
  | cursor, 0 => .ok ([], [], cursor)
  | cursor, n + 1 =>
    match raw_line cursor lines with
    | .error e => .error e
    | .ok line =>
      match (pySplit line).drop 1 with
      | [pe, pf] =>
        match parseFloat? pe, parseFloat? pf with
        | some eps, some f =>
          if n = 0 then .ok ([eps], [f], cursor)
          else
            match bandRows lines (cursor + 1) n with
            | .error e => .error e
            | .ok (es, fs, c') => .ok (eps :: es, f :: fs, c')
        | _, _ => .error "ValueError: could not convert string to float"
      | _ => .error "ValueError: not enough values to unpack"

/-- Python/numpy indexing `weights[ikpt]` with wrap-around for negative
indices and IndexError outside the valid range. -/
def pyIndex? (l : List ℚ) (i : ℤ) : Option ℚ :=
  if 0 ≤ i then l[i.toNat]?
  else if (-i).toNat ≤ l.length then l[l.length - (-i).toNat]?
  else none

/-- The per-k-point loop of `Kpoints.parse` for one spin channel:
`r` k-points remain. Read the (repaired) k-point line at the cursor, get
the k-point index from `parts[1]`, its weight from the header weights,
skip two lines into the band block, read the bands, then skip three
lines after the last k-point of the block and two otherwise. -/
def kpointBlocks (lines : List Line) (weights : List ℚ) (nbands : ℕ) (spin : ℕ) :
    ℕ → ℕ → Except String (List SPKPoint × ℕ)
  | cursor, 0 => .ok ([], cursor)
  | cursor, r + 1 =>
    match get_line cursor lines with
    | .error e => .error e
    | .ok line =>
      match (pySplit line)[1]? with
      | none => .error "IndexError: list index out of range"
      | some p1 =>
        match parseInt? p1 with
        | none => .error "ValueError: invalid literal for int"
        | some k =>
          let ikpt : ℤ := k - 1
          match pyIndex? weights ikpt with
          | none => .error "IndexError: index out of bounds"
          | some weight =>
            match bandRows lines (cursor + 2) nbands with
            | .error e => .error e
            | .ok (eps, fs, c2) =>
              let c3 := if r = 0 then c2 + 3 else c2 + 2
              match kpointBlocks lines weights nbands spin c3 r with
              | .error e => .error e
              | .ok (ks, c4) => .ok (⟨weight, spin, ikpt, eps, fs⟩ :: ks, c4)

/-- The spin-channel loop of `Kpoints.parse`: for each spin channel the
cursor must sit on a `spin component` line (assert), then skip two lines
and read the k-point blocks. -/
def spinBlocks (lines : List Line) (weights : List ℚ) (nkpts nbands : ℕ) :
    ℕ → ℕ → ℕ → Except String (List SPKPoint × ℕ)
  | _, 0, cursor => .ok ([], cursor)
  | spin, r + 1, cursor =>
    match raw_line cursor lines with
    | .error e => .error e
    | .ok l =>
      if hasSub "spin component".data l then
        match kpointBlocks lines weights nbands spin (cursor + 2) nkpts with
        | .error e => .error e
        | .ok (ks, c') =>
          match spinBlocks lines weights nkpts nbands (spin + 1) r c' with
          | .error e => .error e
          | .ok (ks', c'') => .ok (ks ++ ks', c'')
      else .error "AssertionError"

/-- Model of `Kpoints.parse`: request nkpts, nbands, kpt_weights and
spinpol from the header (ParseError when any is absent), then walk the
spin-channel / k-point / band offset schedule collecting the
SinglePointKPoint list. -/
def Kpoints.parse (header : Dict) (cursor : ℕ) (lines : List Line) :
    Except String (List SPKPoint) :=
  match get_from_header header "nkpts" with
  | .error e => .error e
  | .ok v1 =>
    match v1.asInt with
    | .error e => .error e
    | .ok nkpts =>
      match get_from_header header "nbands" with
      | .error e => .error e
      | .ok v2 =>
        match v2.asInt with
        | .error e => .error e
        | .ok nbands =>
          match get_from_header header "kpt_weights" with
          | .error e => .error e
          | .ok v3 =>
            match v3.asRats with
            | .error e => .error e
            | .ok weights =>
              match get_from_header header "spinpol" with
              | .error e => .error e
              | .ok v4 =>
                match v4.asBool with
                | .error e => .error e
                | .ok spinpol =>
                  let nspins := if spinpol then 2 else 1
                  match spinBlocks lines weights nkpts.toNat nbands.toNat 0 nspins cursor with
                  | .error e => .error e
                  | .ok (kpts, _) => .ok kpts

/-- The second delimiter searched for by `KpointHeader.parse`. -/
def kptDelim2 : List Char := "k-points in reciprocal lattice and weights".data

/-- Offset (from the start of the given suffix) of the first line
containing the delimiter; stripping a line cannot create or destroy an
occurrence of this whitespace-free-edged delimiter, so the raw line is
checked. -/
def findDelim (delim : List Char) : List Line → Option ℕ
  | [] => none
  | l :: rest =>
    if hasSub delim l then some 0
    else (findDelim delim rest).map (fun n => n + 1)

/-- The k-point table loop of `KpointHeader.parse`: for each of the `r`
remaining k-points (index `nk`), read the raw line at `base + nk + 1`,
parse the first three tokens as the fractional coordinates and the last
token as the weight. -/
def kptTable (lines : List Line) (base : ℕ) :
    ℕ → ℕ → Except String (List Vec3 × List ℚ)
  | _, 0 => .ok ([], [])
  | nk, r + 1 =>
    match raw_line (base + nk + 1) lines with
    | .error e => .error e
    | .ok l =>
      let parts := pySplit l
      match floats? (parts.take 3) with
      | none => .error "ValueError: could not convert string to float"
      | some f3 =>
        match f3 with
        | [x, y, z] =>
          match parts.getLast? with
          | none => .error "IndexError: list index out of range"
          | some lastTok =>
            match parseFloat? lastTok with
            | none => .error "ValueError: could not convert string to float"
            | some w =>
              match kptTable lines base (nk + 1) r with
              | .error e => .error e
              | .ok (vs, ws) => .ok ((x, y, z) :: vs, w :: ws)
        | _ => .error "could not broadcast input array"

/-- Model of `KpointHeader.parse`: read nkpts (`parts[3]`) and nbands
(`parts[-1]`) from the NKPTS line at the cursor, then search forward from
the cursor for the reciprocal-lattice delimiter; if it is never found,
raise ParseError; otherwise read the k-point coordinate/weight table
starting one line below it. -/
def KpointHeader.parse (cursor : ℕ) (lines : List Line) : Except String Dict :=
  match raw_line cursor lines with
  | .error e => .error e
  | .ok line =>
    let parts := pySplit line
    match parts[3]? with
    | none => .error "IndexError: list index out of range"
    | some p3 =>
      match parseInt? p3 with
      | none => .error "ValueError: invalid literal for int"
      | some nkptsZ =>
        match parts.getLast? with
        | none => .error "IndexError: list index out of range"
        | some pl =>
          match parseInt? pl with
          | none => .error "ValueError: invalid literal for int"
          | some nbandsZ =>
            if nkptsZ < 0 then .error "ValueError: negative dimensions are not allowed"
            else
              match findDelim kptDelim2 (lines.drop cursor) with
              | none => .error "Did not find the K-points in the OUTCAR"
              | some offset =>
                match kptTable lines (cursor + offset) 0 nkptsZ.toNat with
                | .error e => .error e
                | .ok (vs, ws) =>
                  .ok [("nkpts", .intV nkptsZ), ("nbands", .intV nbandsZ),
                       ("ibzkpts", .vecsV vs), ("kpt_weights", .ratsV ws)]

/-- Model of `OutcarHeaderParser._build_symbols`: if a `symbols` entry is
already present it is popped and used; otherwise `ion_types` and
`species` are mandatory (ParseError when absent), must have equal length
(ParseError otherwise), and the per-atom symbol sequence is species
expanded by ion counts. Returns the symbols and the results dict with the
consumed keys removed. -/
def build_symbols (results : Dict) : Except String (List String × Dict) :=
  match dictGet results "symbols" with
  | some v =>
    match v, dictPop results "symbols" with
    | .strsV s, some (_, rest) => .ok (s, rest)
    | _, _ => .error "TypeError: expected symbols list"
  | none =>
    match dictGet results "ion_types" with
    | none => .error "Did not find required key ion_types in parsed header results."
    | some vIon =>
      match dictGet results "species" with
      | none => .error "Did not find required key species in parsed header results."
      | some vSp =>
        match vIon, vSp with
        | .intsV ion_types, .strsV species =>
          if ion_types.length ≠ species.length then
            .error "Expected length of ion_types to be same as species"
          else
            match dictPop results "ion_types" with
            | none => .error "KeyError: ion_types"
            | some (_, r1) =>
              match dictPop r1 "species" with
              | none => .error "KeyError: species"
              | some (_, r2) =>
                .ok (((ion_types.zip species).map
                  (fun p => List.replicate p.1.toNat p.2)).flatten, r2)
        | _, _ => .error "TypeError: expected ion_types and species lists"

/-- Model of `OutcarHeaderParser.build` applied to the merged results of
the header extractors: derive the per-atom symbols, set natoms to their
count, attach the (absent, workdir-less) constraint, and keep the
remaining parsed fields. -/
def OutcarHeaderParser.build (results : Dict) : Except String Dict :=
  match build_symbols results with
  | .error e => .error e
  | .ok (symbols, rest) =>
    .ok (("symbols", .strsV symbols) ::
         ("natoms", .intV (symbols.length : ℤ)) ::
         ("constraint", .noneV) :: rest)

/-- The element symbol table `ase.data.atomic_numbers` used by
`SpeciesTypes.parse` to validate a normalized symbol (the placeholder X
for atomic number 0 is part of the table). -/
def chemicalSymbols : List String :=
  ["X", "H", "He", "Li", "Be", "B", "C", "N", "O", "F", "Ne",
   "Na", "Mg", "Al", "Si", "P", "S", "Cl", "Ar", "K", "Ca",
   "Sc", "Ti", "V", "Cr", "Mn", "Fe", "Co", "Ni", "Cu", "Zn",
   "Ga", "Ge", "As", "Se", "Br", "Kr", "Rb", "Sr", "Y", "Zr",
   "Nb", "Mo", "Tc", "Ru", "Rh", "Pd", "Ag", "Cd", "In", "Sn",
   "Sb", "Te", "I", "Xe", "Cs", "Ba", "La", "Ce", "Pr", "Nd",
   "Pm", "Sm", "Eu", "Gd", "Tb", "Dy", "Ho", "Er", "Tm", "Yb",
   "Lu", "Hf", "Ta", "W", "Re", "Os", "Ir", "Pt", "Au", "Hg",
   "Tl", "Pb", "Bi", "Po", "At", "Rn", "Fr", "Ra", "Ac", "Th",
   "Pa", "U", "Np", "Pu", "Am", "Cm", "Bk", "Cf", "Es", "Fm",
   "Md", "No", "Lr", "Rf", "Db", "Sg", "Bh", "Hs", "Mt", "Ds",
   "Rg", "Cn", "Nh", "Fl", "Mc", "Lv", "Ts", "Og"]

/-- Model of `[int(a) for a in toks]`: all tokens must parse, otherwise
ValueError (modelled as `none`). -/
def ints? : List (List Char) → Option (List ℤ)
  | [] => some []
  | t :: rest =>
    match parseInt? t, ints? rest with
    | some n, some ns => some (n :: ns)
    | _, _ => none

/-- Model of `Spinpol.parse`: ISPIN is `parts[2]` of the line; the run is
spin-polarized exactly when ISPIN is 2. -/
def Spinpol.parse (cursor : ℕ) (lines : List Line) : Except String Dict :=
  match lines[cursor]? with
  | none => .error "IndexError: line out of range"
  | some line =>
    match (pySplit line)[2]? with
    | none => .error "IndexError: list index out of range"
    | some p2 =>
      match parseInt? p2 with
      | none => .error "ValueError: invalid literal for int"
      | some ispin => .ok [("spinpol", .boolV (ispin == 2))]

/-- Model of `IonsPerSpecies.parse`: the ion counts are the integer
tokens from `parts[4:]` of the line. -/
def IonsPerSpecies.parse (cursor : ℕ) (lines : List Line) : Except String Dict :=
  match lines[cursor]? with
  | none => .error "IndexError: line out of range"
  | some line =>
    match ints? ((pySplit line).drop 4) with
    | none => .error "ValueError: invalid literal for int"
    | some ns => .ok [("ion_types", .intsV ns)]

/-- Model of `SpeciesTypes.parse` at one POTCAR line, threading the
accumulator of found species: the symbol token is `parts[1]` for an AE
(1/r) potential and `parts[2]` otherwise; tags after an underscore are
stripped, then all non-alphabetic characters; an unknown element symbol
raises ParseError. On success the symbol is appended to the accumulator
and the de-duplicated species list is (re-)emitted. -/
def SpeciesTypes.parseLine (acc : List String) (cursor : ℕ) (lines : List Line) :
    Except String (List String × Dict) :=
  match lines[cursor]? with
  | none => .error "IndexError: line out of range"
  | some line =>
    let idx := if hasSub "1/r potential".data line then 1 else 2
    match (pySplit line)[idx]? with
    | none => .error "IndexError: list index out of range"
    | some tok =>
      let sym : String := ⟨(tok.takeWhile (fun c => c != '_')).filter Char.isAlpha⟩
      if chemicalSymbols.contains sym then
        let updated := acc ++ [sym]
        .ok (updated, [("species", .strsV (SpeciesTypes.get_species updated))])
      else .error ("Found an unexpected symbol " ++ sym)

/-- Dict insert with Python update semantics: replace the first binding
of the key, or append a new one. -/
def dictInsert : Dict → String → Val → Dict
  | [], key, v => [(key, v)]
  | (k, w) :: rest, key, v =>
    if k = key then (key, v) :: rest
    else (k, w) :: dictInsert rest key v

/-- Model of `properties.update(prop)`: insert the entries of `prop` in
order, each replacing any existing binding. -/
def dictUpdate (d : Dict) : Dict → Dict
  | [] => d
  | (k, v) :: rest => dictUpdate (dictInsert d k v) rest

/-- One iteration of `TypeParser.parse` over one header line: query the
four default header extractors in registry order (SpeciesTypes,
IonsPerSpecies, Spinpol, KpointHeader), each recognizing its line by
delimiter containment, and merge each match's fields into the running
property mapping; errors propagate. The SpeciesTypes accumulator is
threaded through. -/
def headerParseStep (acc : List String) (props : Dict) (cursor : ℕ) (lines : List Line) :
    Except String (List String × Dict) :=
  match lines[cursor]? with
  | none => .error "IndexError: line out of range"
  | some line =>
    let s1 : Except String (List String × Dict) :=
      if hasSub "POTCAR:".data line then
        match SpeciesTypes.parseLine acc cursor lines with
        | .error e => .error e
        | .ok (updated, prop) => .ok (updated, dictUpdate props prop)
      else .ok (acc, props)
    match s1 with
    | .error e => .error e
    | .ok (acc1, props1) =>
      let s2 : Except String Dict :=
        if hasSub "ions per type".data line then
          match IonsPerSpecies.parse cursor lines with
          | .error e => .error e
          | .ok prop => .ok (dictUpdate props1 prop)
        else .ok props1
      match s2 with
      | .error e => .error e
      | .ok props2 =>
        let s3 : Except String Dict :=
          if hasSub "ISPIN".data line then
            match Spinpol.parse cursor lines with
            | .error e => .error e
            | .ok prop => .ok (dictUpdate props2 prop)
          else .ok props2
        match s3 with
        | .error e => .error e
        | .ok props3 =>
          if hasSub "NKPTS".data line then
            match KpointHeader.parse cursor lines with
            | .error e => .error e
            | .ok prop => .ok (acc1, dictUpdate props3 prop)
          else .ok (acc1, props3)

/-- The cursor loop of `TypeParser.parse`: run `headerParseStep` at each
line position in order; the first argument counts the remaining
positions. -/
def headerParseAux (lines : List Line) : ℕ → ℕ → List String → Dict → Except String Dict
  | 0, _, _, props => .ok props
  | n + 1, cursor, acc, props =>
    match headerParseStep acc props cursor lines with
    | .error e => .error e
    | .ok (updated, props2) => headerParseAux lines n (cursor + 1) updated props2

/-- Model of `TypeParser.parse` with the default header parsers: iterate
every line position with a fresh SpeciesTypes accumulator and an empty
property mapping. -/
def OutcarHeaderParser.parse (lines : List Line) : Except String Dict :=
  headerParseAux lines lines.length 0 [] []

/-- Model of the full source `OutcarHeaderParser.build(lines)`: run the
default header extractors over the header lines, then assemble the
header from the merged results (symbol expansion, natoms, constraint). -/
def OutcarHeaderParser.buildFromLines (lines : List Line) : Except String Dict :=
  match OutcarHeaderParser.parse lines with
  | .error e => .error e
  | .ok results => OutcarHeaderParser.build results

/-- Model of the source `outcarchunks` generator: collect the header
lines (propagating the Incomplete-OUTCAR ParseError), build the header
from them with the default header parsers (propagating any header
ParseError, raised before any chunk is yielded), then produce the lazy
list of chunks. Each yielded OUTCARChunk carries its line span and the
shared header, so the result is returned as (header, chunk line spans). -/
def outcarchunks (fd : List Line) : Except String (Dict × List (List Line)) :=
  match build_header fd with
  | .error e => .error e
  | .ok (hlines, rest) =>
    match OutcarHeaderParser.buildFromLines hlines with
    | .error e => .error e
    | .ok header => .ok (header, outcarchunksFrom rest)

/-- A built Record (ASE Atoms with attached single-point calculator), as
assembled by `OutcarChunkParser.build`: per-atom symbols and constraint
copied from the header, mandatory positions and cell, the optional
k-point bundle, and the remaining parsed fields as calculator results. -/
structure Record where
  symbols : Val
  constraint : Option Val
  positions : Val
  cell : Val
  kpts : Option Val
  calcResults : Dict
deriving DecidableEq

/-- Model of `OutcarChunkParser.build` applied to the merged results of
the chunk extractors: `header[symbols]` is read directly (KeyError when
absent), then `positions` and `cell` are popped as mandatory fields,
raising ParseError when either is absent; `kpts` is popped optionally
and everything left becomes the calculator results. -/
def OutcarChunkParser.build (header : Dict) (results : Dict) : Except String Record :=
  match dictGet header "symbols" with
  | none => .error "KeyError: symbols"
  | some symbols =>
    let constraint := dictGet header "constraint"
    match dictPop results "positions" with
    | none => .error "Did not find required property positions during parse."
    | some (positions, r1) =>
      match dictPop r1 "cell" with
      | none => .error "Did not find required property cell during parse."
      | some (cell, r2) =>
        match dictPop r2 "kpts" with
        | none => .ok ⟨symbols, constraint, positions, cell, none, r2⟩
        | some (kpts, r3) => .ok ⟨symbols, constraint, positions, cell, some kpts, r3⟩

/-- A well-formed chunk as laid down by the OUTCAR format: body lines
free of the SCF delimiter, one delimiter line, then exactly four
continuation lines (their content is unconstrained, as `build_chunk`
reads them blindly). -/
def wfChunk (c : List Line) : Prop :=
  ∃ body d tail4, c = body ++ d :: tail4 ∧ (∀ l ∈ body, hasSCF l = false) ∧
    hasSCF d = true ∧ tail4.length = 4

/-- A truncated trailing portion of the stream: either the convergence
delimiter never appears, or it appears but fewer than four continuation
lines follow it. The empty tail (no trailing garbage) is the first
disjunct vacuously. -/
def truncTail (t : List Line) : Prop :=
  (∀ l ∈ t, hasSCF l = false) ∨
  ∃ body d tail, t = body ++ d :: tail ∧ (∀ l ∈ body, hasSCF l = false) ∧
    hasSCF d = true ∧ tail.length < 4

theorem scanChunk_append (body : List Line) (d : Line) (rest : List Line)
    (hb : ∀ l ∈ body, hasSCF l = false) (hd : hasSCF d = true) :
    scanChunk (body ++ d :: rest) = some (body ++ [d], rest) := by
  induction body with
  | nil => simp [scanChunk, hd]
  | cons l bs ih =>
    have hl : hasSCF l = false := hb l (by simp)
    have hbs : ∀ x ∈ bs, hasSCF x = false := fun x hx => hb x (by simp [hx])
    simp only [List.cons_append, scanChunk, hl, List.append_eq]
    rw [ih hbs]
    simp

theorem scanChunk_none (t : List Line) (h : ∀ l ∈ t, hasSCF l = false) :
    scanChunk t = none := by
  induction t with
  | nil => rfl
  | cons l rest ih =>
    have hl : hasSCF l = false := h l (by simp)
    have hrest : ∀ x ∈ rest, hasSCF x = false := fun x hx => h x (by simp [hx])
    simp [scanChunk, hl, ih hrest]

theorem build_chunk_wf (c rest : List Line) (hc : wfChunk c) :
    build_chunk (c ++ rest) = some (c, rest) := by
  obtain ⟨body, d, tail4, hceq, hb, hd, h4⟩ := hc
  subst hceq
  have : (body ++ d :: tail4) ++ rest = body ++ d :: (tail4 ++ rest) := by simp
  rw [this]
  unfold build_chunk
  rw [scanChunk_append body d (tail4 ++ rest) hb hd]
  have hlen : 4 ≤ (tail4 ++ rest).length := by simp [h4]
  simp only [hlen, if_pos]
  have htake : (tail4 ++ rest).take 4 = tail4 := by
    rw [← h4]; exact List.take_left tail4 rest
  have hdrop : (tail4 ++ rest).drop 4 = rest := by
    rw [← h4]; exact List.drop_left tail4 rest
  rw [htake, hdrop]
  simp

theorem build_chunk_trunc (t : List Line) (ht : truncTail t) :
    build_chunk t = none := by
  rcases ht with h | ⟨body, d, tail, hteq, hb, hd, hlt⟩
  · unfold build_chunk
    rw [scanChunk_none t h]
  · subst hteq
    unfold build_chunk
    rw [scanChunk_append body d tail hb hd]
    have : ¬ 4 ≤ tail.length := by omega
    simp [this]

theorem outcarchunksFrom_of_none {fd : List Line} (h : build_chunk fd = none) :
    outcarchunksFrom fd = [] := by
  conv_lhs => rw [outcarchunksFrom.eq_def]
  split
  · rfl
  · next c r heq => rw [h] at heq; cases heq

theorem outcarchunksFrom_of_some {fd c r} (h : build_chunk fd = some (c, r)) :
    outcarchunksFrom fd = c :: outcarchunksFrom r := by
  conv_lhs => rw [outcarchunksFrom.eq_def]
  split
  · next heq => rw [heq] at h; cases h
  · next c' r' heq =>
    rw [heq] at h
    simp at h
    obtain ⟨h1, h2⟩ := h
    subst h1; subst h2
    rfl

theorem outcarchunksFrom_flatten (cs : List (List Line)) (t : List Line)
    (h : ∀ c ∈ cs, wfChunk c) (ht : truncTail t) :
    outcarchunksFrom (cs.flatten ++ t) = cs := by
  induction cs with
  | nil =>
    simp only [List.flatten_nil, List.nil_append]
    exact outcarchunksFrom_of_none (build_chunk_trunc t ht)
  | cons c cs' ih =>
    have hc : wfChunk c := h c (by simp)
    have hcs' : ∀ x ∈ cs', wfChunk x := fun x hx => h x (by simp [hx])
    have : (c :: cs').flatten ++ t = c ++ (cs'.flatten ++ t) := by simp
    rw [this]
    rw [outcarchunksFrom_of_some (build_chunk_wf c (cs'.flatten ++ t) hc)]
    rw [ih hcs']

theorem build_header_append (hbody : List Line) (hline : Line) (rest : List Line)
    (h1 : ∀ l ∈ hbody, hasIter l = false) (h2 : hasIter hline = true) :
    build_header (hbody ++ hline :: rest) = .ok (hbody ++ [hline], rest) := by
  induction hbody with
  | nil => simp [build_header, h2]
  | cons l bs ih =>
    have hl : hasIter l = false := h1 l (by simp)
    have hbs : ∀ x ∈ bs, hasIter x = false := fun x hx => h1 x (by simp [hx])
    simp only [List.cons_append, build_header, hl, List.append_eq]
    rw [ih hbs]
    simp

theorem build_header_exhausted (fd : List Line)
    (h : ∀ l ∈ fd, hasIter l = false) : build_header fd = .error "Incomplete OUTCAR" := by
  induction fd with
  | nil => rfl
  | cons l rest ih =>
    have hl : hasIter l = false := h l (by simp)
    have hrest : ∀ x ∈ rest, hasIter x = false := fun x hx => h x (by simp [hx])
    simp [build_header, hl, ih hrest]

/-- C4: for every input stream exhausted before any line containing the
header-terminating marker `Iteration` is read, `build_header` aborts with
the Incomplete-OUTCAR ParseError, which `outcarchunks` surfaces to the
caller instead of yielding an empty sequence or a header. -/
theorem c4_incomplete_header (fd : List Line)
    (h : ∀ l ∈ fd, hasIter l = false) :
    build_header fd = .error "Incomplete OUTCAR" ∧
    outcarchunks fd = .error "Incomplete OUTCAR" := by
  have hb := build_header_exhausted fd h
  refine ⟨hb, ?_⟩
  unfold outcarchunks
  rw [hb]

/-- Witness for C4 at a concrete marker-free stream. -/
theorem c4_witness :
    build_header ["no marker here".data] = .error "Incomplete OUTCAR" ∧
    outcarchunks ["no marker here".data] = .error "Incomplete OUTCAR" :=
  c4_incomplete_header ["no marker here".data] (by decide)

/-- C6: `SpeciesTypes.get_species` returns exactly the first half of the
accumulated raw species list, the split point rounded up on odd length;
in particular `[X, Y, X, Y]` yields `[X, Y]` and `[X, Y, X]` also yields
`[X, Y]`. -/
theorem c6_species_dedup :
    (∀ l : List String, SpeciesTypes.get_species l = l.take ((l.length + 1) / 2)) ∧
    (∀ X Y : String, SpeciesTypes.get_species [X, Y, X, Y] = [X, Y] ∧
      SpeciesTypes.get_species [X, Y, X] = [X, Y]) := by
  constructor
  · intro l
    unfold SpeciesTypes.get_species
    congr 1
    omega
  · intro X Y
    constructor
    · simp [SpeciesTypes.get_species]
    · simp [SpeciesTypes.get_species]

/-- C7: the numeric line repair inserts a space before a minus sign
exactly at digit-dash-digit adjacencies: the line `1.234-5.678  9.000`
tokenizes after repair to `1.234`, `-5.678`, `9.000`, and every line
without a digit-dash-digit adjacency (in particular one whose negative
numbers are already space-separated) is returned unchanged. -/
theorem c7_numeric_line_repair :
    pySplit (check_line "1.234-5.678  9.000".data) =
      ["1.234".data, "-5.678".data, "9.000".data] ∧
    (∀ l : Line, hasDDD l = false → check_line l = l) := by
  constructor
  · decide
  · intro l h
    simp [check_line, h]

/-- Witness for C7: the already-space-separated line is unchanged. -/
theorem c7_witness : check_line "1.234 -5.678".data = "1.234 -5.678".data :=
  c7_numeric_line_repair.2 "1.234 -5.678".data (by decide)

/-- Counterexample for C3 as stated: a stress line whose tokens after the
first two parse to exactly five floats does NOT produce an absent stress
field with a warning; the shape ValueError raised by
`convert_vasp_outcar_stress` sits in the `else` clause of the
try/except and escapes `Stress.parse` as an exception. -/
theorem c3_counterexample :
    Stress.parse 1 0 [" in kB 1.0 2.0 3.0 4.0 5.0".data] =
      .error "Stress has the wrong shape. Expected (6,)." ∧
    Stress.parse 1 0 [" in kB 1.0 2.0 3.0 4.0 5.0".data] ≠ .ok (none, true) := by
  refine ⟨rfl, ?_⟩
  intro h
  exact Except.noConfusion h

/-- C3 (amended): the stress transform maps `[1,2,3,4,5,6]` to the
negated sequence permuted by `[0,1,2,4,5,3]`, i.e. `[-1,-2,-3,-5,-6,-4]`,
each component scaled by `0.1 ·  GPa`; a length-5 float sequence raises
the shape ValueError (which escapes the parser); only a stress line with
a token that fails float conversion yields the absent stress field plus
a warning. -/
theorem c3_stress_transform (gpa : ℚ) :
    convert_vasp_outcar_stress gpa [1, 2, 3, 4, 5, 6] =
      .ok [-1 * (1 / 10) * gpa, -2 * (1 / 10) * gpa, -3 * (1 / 10) * gpa,
           -5 * (1 / 10) * gpa, -6 * (1 / 10) * gpa, -4 * (1 / 10) * gpa] ∧
    (∀ stress : List ℚ, stress.length = 5 →
      convert_vasp_outcar_stress gpa stress =
        .error "Stress has the wrong shape. Expected (6,).") ∧
    Stress.parse gpa 0 [" in kB 1.0 2.0 3.0 4.0 5.0 6.0x".data] = .ok (none, true) := by
  refine ⟨rfl, ?_, rfl⟩
  intro stress h
  rcases stress with _ | ⟨a, _ | ⟨b, _ | ⟨c, _ | ⟨d, _ | ⟨e, _ | ⟨f, tl⟩⟩⟩⟩⟩⟩ <;>
    first
    | rfl
    | ((simp at h) <;> omega)

/-- Witness for C3 (amended) at a concrete length-5 float sequence. -/
theorem c3_witness :
    convert_vasp_outcar_stress 1 [1, 1, 1, 1, 1] =
      .error "Stress has the wrong shape. Expected (6,)." :=
  (c3_stress_transform 1).2.1 [1, 1, 1, 1, 1] (by rfl)

/-- C2: for every merged chunk result mapping lacking `positions`, and
likewise for every mapping containing `positions` but lacking `cell`,
`OutcarChunkParser.build` raises the missing-required-field ParseError
instead of returning a partial Record or skipping the chunk. -/
theorem c2_mandatory_fields (header results : Dict) (sym : Val)
    (hsym : dictGet header "symbols" = some sym) :
    (dictGet results "positions" = none →
      OutcarChunkParser.build header results =
        .error "Did not find required property positions during parse.") ∧
    (∀ p : Val, dictGet results "positions" = some p →
      dictGet results "cell" = none →
      OutcarChunkParser.build header results =
        .error "Did not find required property cell during parse.") := by
  constructor
  · intro hp
    unfold OutcarChunkParser.build
    rw [hsym, dictPop_of_get_none hp]
  · intro p hp hc
    obtain ⟨r1, hpop1, hpres1⟩ := dictPop_of_get_some hp
    have hc1 : dictGet r1 "cell" = none := by
      rw [hpres1 "cell" (by decide)]
      exact hc
    unfold OutcarChunkParser.build
    simp only [hsym, hpop1, dictPop_of_get_none hc1]

/-- Witness for C2: concrete result mappings missing `positions`
(resp. missing `cell` while holding `positions`). -/
theorem c2_witness :
    OutcarChunkParser.build [("symbols", .strsV ["X"])] [("cell", .vecsV [])] =
      .error "Did not find required property positions during parse." ∧
    OutcarChunkParser.build [("symbols", .strsV ["X"])] [("positions", .vecsV [])] =
      .error "Did not find required property cell during parse." :=
  ⟨(c2_mandatory_fields [("symbols", .strsV ["X"])] [("cell", .vecsV [])]
      (.strsV ["X"]) (by rfl)).1 (by rfl),
   (c2_mandatory_fields [("symbols", .strsV ["X"])] [("positions", .vecsV [])]
      (.strsV ["X"]) (by rfl)).2 (.vecsV []) (by rfl) (by rfl)⟩

/-- C5: for a parsed header result with species `[X, Y]` and ion counts
`[2, 3]`, the built header carries the per-atom symbol sequence
`[X, X, Y, Y, Y]` and natoms 5; a parsed header result lacking
`ion_types` (resp. lacking `species`) makes the header build fail with
the missing-required-key ParseError instead of producing a header. -/
theorem c5_header_build :
    (∀ (X Y : String) (results : Dict),
      dictGet results "symbols" = none →
      dictGet results "ion_types" = some (.intsV [2, 3]) →
      dictGet results "species" = some (.strsV [X, Y]) →
      ∃ rest, OutcarHeaderParser.build results =
        .ok (("symbols", .strsV [X, X, Y, Y, Y]) ::
             ("natoms", .intV 5) :: ("constraint", .noneV) :: rest)) ∧
    (∀ results : Dict, dictGet results "symbols" = none →
      dictGet results "ion_types" = none →
      OutcarHeaderParser.build results =
        .error "Did not find required key ion_types in parsed header results.") ∧
    (∀ (results : Dict) (v : Val), dictGet results "symbols" = none →
      dictGet results "ion_types" = some v →
      dictGet results "species" = none →
      OutcarHeaderParser.build results =
        .error "Did not find required key species in parsed header results.") := by
  refine ⟨?_, ?_, ?_⟩
  · intro X Y results h0 hion hsp
    obtain ⟨r1, hpop1, hpres1⟩ := dictPop_of_get_some hion
    have hsp1 : dictGet r1 "species" = some (.strsV [X, Y]) := by
      rw [hpres1 "species" (by decide)]
      exact hsp
    obtain ⟨r2, hpop2, hpres2⟩ := dictPop_of_get_some hsp1
    refine ⟨r2, ?_⟩
    unfold OutcarHeaderParser.build build_symbols
    simp only [h0, hion, hsp, hpop1, hpop2]
    simp
  · intro results h0 hion
    unfold OutcarHeaderParser.build build_symbols
    rw [h0, hion]
  · intro results v h0 hion hsp
    unfold OutcarHeaderParser.build build_symbols
    rw [h0, hion, hsp]

/-- Witness for C5 at concrete parsed header results. -/
theorem c5_witness :
    (∃ rest, OutcarHeaderParser.build
        [("ion_types", .intsV [2, 3]), ("species", .strsV ["Ni", "O"])] =
      .ok (("symbols", .strsV ["Ni", "Ni", "O", "O", "O"]) ::
           ("natoms", .intV 5) :: ("constraint", .noneV) :: rest)) ∧
    OutcarHeaderParser.build [("spinpol", .boolV true)] =
      .error "Did not find required key ion_types in parsed header results." ∧
    OutcarHeaderParser.build [("ion_types", .intsV [2, 3])] =
      .error "Did not find required key species in parsed header results." :=
  ⟨c5_header_build.1 "Ni" "O" _ (by rfl) (by rfl) (by rfl),
   c5_header_build.2.1 [("spinpol", .boolV true)] (by rfl) (by rfl),
   c5_header_build.2.2 [("ion_types", .intsV [2, 3])] (.intsV [2, 3])
     (by rfl) (by rfl) (by rfl)⟩

/-- C9: `get_from_header` fails with the missing-header-field ParseError
for every key absent from the header, and consequently
`PositionsAndForces.parse` fails when natoms is absent, and
`Kpoints.parse` fails when any of nkpts, nbands, kpt_weights or the
spinpol flag is absent — each surfaces the error to the caller instead of
returning a default or partial result. -/
theorem c9_missing_header_field :
    (∀ (header : Dict) (key : String), dictGet header key = none →
      get_from_header header key =
        .error ("Parser requested unavailable key " ++ key ++ " from header")) ∧
    (∀ (header : Dict) (cursor : ℕ) (lines : List Line),
      dictGet header "natoms" = none →
      PositionsAndForces.parse header cursor lines =
        .error "Parser requested unavailable key natoms from header") ∧
    (∀ (header : Dict) (cursor : ℕ) (lines : List Line),
      dictGet header "nkpts" = none →
      Kpoints.parse header cursor lines =
        .error "Parser requested unavailable key nkpts from header") ∧
    (∀ (header : Dict) (cursor : ℕ) (lines : List Line) (k : ℤ),
      dictGet header "nkpts" = some (.intV k) →
      dictGet header "nbands" = none →
      Kpoints.parse header cursor lines =
        .error "Parser requested unavailable key nbands from header") ∧
    (∀ (header : Dict) (cursor : ℕ) (lines : List Line) (k b : ℤ),
      dictGet header "nkpts" = some (.intV k) →
      dictGet header "nbands" = some (.intV b) →
      dictGet header "kpt_weights" = none →
      Kpoints.parse header cursor lines =
        .error "Parser requested unavailable key kpt_weights from header") ∧
    (∀ (header : Dict) (cursor : ℕ) (lines : List Line) (k b : ℤ) (w : List ℚ),
      dictGet header "nkpts" = some (.intV k) →
      dictGet header "nbands" = some (.intV b) →
      dictGet header "kpt_weights" = some (.ratsV w) →
      dictGet header "spinpol" = none →
      Kpoints.parse header cursor lines =
        .error "Parser requested unavailable key spinpol from header") := by
  refine ⟨?_, ?_, ?_, ?_, ?_, ?_⟩
  · intro header key h
    unfold get_from_header
    rw [h]
  · intro header cursor lines h
    unfold PositionsAndForces.parse get_from_header
    rw [h]
    rfl
  · intro header cursor lines h
    unfold Kpoints.parse get_from_header
    rw [h]
    rfl
  · intro header cursor lines k h1 h2
    unfold Kpoints.parse get_from_header
    simp only [h1, h2, Val.asInt]
    rfl
  · intro header cursor lines k b h1 h2 h3
    unfold Kpoints.parse get_from_header
    simp only [h1, h2, h3, Val.asInt]
    rfl
  · intro header cursor lines k b w h1 h2 h3 h4
    unfold Kpoints.parse get_from_header
    simp only [h1, h2, h3, h4, Val.asInt, Val.asRats]
    rfl

/-- Witness for C9 at concrete headers lacking the requested fields. -/
theorem c9_witness :
    get_from_header [] "efermi" =
      .error "Parser requested unavailable key efermi from header" ∧
    PositionsAndForces.parse [] 0 [] =
      .error "Parser requested unavailable key natoms from header" ∧
    Kpoints.parse [] 0 [] =
      .error "Parser requested unavailable key nkpts from header" ∧
    Kpoints.parse [("nkpts", .intV 1)] 0 [] =
      .error "Parser requested unavailable key nbands from header" ∧
    Kpoints.parse [("nkpts", .intV 1), ("nbands", .intV 3)] 0 [] =
      .error "Parser requested unavailable key kpt_weights from header" ∧
    Kpoints.parse [("nkpts", .intV 1), ("nbands", .intV 3),
        ("kpt_weights", .ratsV [1])] 0 [] =
      .error "Parser requested unavailable key spinpol from header" :=
  ⟨c9_missing_header_field.1 [] "efermi" (by rfl),
   c9_missing_header_field.2.1 [] 0 [] (by rfl),
   c9_missing_header_field.2.2.1 [] 0 [] (by rfl),
   c9_missing_header_field.2.2.2.1 [("nkpts", .intV 1)] 0 [] 1 (by rfl) (by rfl),
   c9_missing_header_field.2.2.2.2.1 [("nkpts", .intV 1), ("nbands", .intV 3)]
     0 [] 1 3 (by rfl) (by rfl) (by rfl),
   c9_missing_header_field.2.2.2.2.2 [("nkpts", .intV 1), ("nbands", .intV 3),
       ("kpt_weights", .ratsV [1])] 0 [] 1 3 [1] (by rfl) (by rfl) (by rfl) (by rfl)⟩

/-- Header for the C8 scenario: nkpts 1, nbands 3, a single unit k-point
weight, spin polarization off. -/
def kptHeaderDemo : Dict :=
  [("nkpts", .intV 1), ("nbands", .intV 3), ("kpt_weights", .ratsV [1]),
   ("spinpol", .boolV false)]

/-- A synthetic eigenvalue block laid out with the documented offset
schedule: the spin-component line at 0, a 2-line skip to the k-point line
at 2, a further 2-line skip into the band block at 4, one line per band
(lines 4, 5, 6), then a 3-line skip after the last k-point. -/
def kptBlockDemo : List Line :=
  [" spin component 1".data,
   "".data,
   " k-point     1 :       0.25    0.25    0.5".data,
   "  band No.  band energies     occupation".data,
   "      1      -9.5      1.0".data,
   "      2       1.5      0.5".data,
   "      3       2.0      0.0".data]

/-- C8: for nkpts 1, nbands 3 and spinpol false, the k-point extractor
applied to the synthetic block with the documented offsets returns the
eigenvalue/occupation pairs (-9.5, 1.0), (1.5, 0.5), (2.0, 0.0) — exactly
the literal values on the three band lines, in band order (mkRat (-19) 2
is -9.5, mkRat 3 2 is 1.5, mkRat 1 2 is 0.5). -/
theorem c8_kpoint_offsets :
    Kpoints.parse kptHeaderDemo 0 kptBlockDemo =
      .ok [⟨1, 0, 0, [mkRat (-19) 2, mkRat 3 2, 2], [1, mkRat 1 2, 0]⟩] := by
  rfl

theorem findDelim_none (delim : List Char) (ls : List Line)
    (h : ∀ l ∈ ls, hasSub delim l = false) : findDelim delim ls = none := by
  induction ls with
  | nil => rfl
  | cons l rest ih =>
    have hl : hasSub delim l = false := h l (by simp)
    have hrest : ∀ x ∈ rest, hasSub delim x = false := fun x hx => h x (by simp [hx])
    simp [findDelim, hl, ih hrest]

theorem kptTable_lengths (lines : List Line) (base : ℕ) :
    ∀ (r nk : ℕ) (vs : List Vec3) (ws : List ℚ),
      kptTable lines base nk r = .ok (vs, ws) →
      vs.length = r ∧ ws.length = r := by
  intro r
  induction r with
  | zero =>
    intro nk vs ws h
    simp [kptTable] at h
    obtain ⟨h1, h2⟩ := h
    subst h1; subst h2
    simp
  | succ n ih =>
    intro nk vs ws h
    unfold kptTable at h
    cases hline : raw_line (base + nk + 1) lines with
    | error e => rw [hline] at h; cases h
    | ok l =>
      simp only [hline] at h
      cases hf : floats? ((pySplit l).take 3) with
      | none => simp [hf] at h
      | some f3 =>
        simp only [hf] at h
        rcases f3 with _ | ⟨x, _ | ⟨y, _ | ⟨z, _ | ⟨w4, t⟩⟩⟩⟩
        · simp at h
        · simp at h
        · simp at h
        · cases hlast : (pySplit l).getLast? with
          | none => simp [hlast] at h
          | some lastTok =>
            simp only [hlast] at h
            cases hw : parseFloat? lastTok with
            | none => simp [hw] at h
            | some w =>
              simp only [hw] at h
              cases ht : kptTable lines base (nk + 1) n with
              | error e => simp [ht] at h
              | ok p =>
                obtain ⟨vs', ws'⟩ := p
                simp only [ht] at h
                simp at h
                obtain ⟨h1, h2⟩ := h
                subst h1; subst h2
                obtain ⟨l1, l2⟩ := ih (nk + 1) vs' ws' ht
                simp [l1, l2]
        · simp at h

theorem kpointHeader_parse_ok {cursor : ℕ} {lines : List Line} {d : Dict}
    (h : KpointHeader.parse cursor lines = .ok d) :
    (∃ offset, findDelim kptDelim2 (lines.drop cursor) = some offset) ∧
    ∃ (nk : ℤ) (vs : List Vec3) (ws : List ℚ),
      dictGet d "nkpts" = some (.intV nk) ∧
      dictGet d "ibzkpts" = some (.vecsV vs) ∧
      dictGet d "kpt_weights" = some (.ratsV ws) ∧
      vs.length = nk.toNat ∧ ws.length = nk.toNat := by
  unfold KpointHeader.parse at h
  cases hline : raw_line cursor lines with
  | error e => rw [hline] at h; cases h
  | ok line =>
    simp only [hline] at h
    cases h3 : (pySplit line)[3]? with
    | none => simp [h3] at h
    | some p3 =>
      simp only [h3] at h
      cases hint : parseInt? p3 with
      | none => simp [hint] at h
      | some nkptsZ =>
        simp only [hint] at h
        cases hlast : (pySplit line).getLast? with
        | none => simp [hlast] at h
        | some pl =>
          simp only [hlast] at h
          cases hint2 : parseInt? pl with
          | none => simp [hint2] at h
          | some nbandsZ =>
            simp only [hint2] at h
            by_cases hneg : nkptsZ < 0
            · simp [hneg] at h
            · simp only [hneg, if_false] at h
              cases hfd : findDelim kptDelim2 (lines.drop cursor) with
              | none => simp [hfd] at h
              | some offset =>
                simp only [hfd] at h
                cases ht : kptTable lines (cursor + offset) 0 nkptsZ.toNat with
                | error e => simp [ht] at h
                | ok p =>
                  obtain ⟨vs, ws⟩ := p
                  simp only [ht] at h
                  simp at h
                  subst h
                  obtain ⟨l1, l2⟩ := kptTable_lengths lines (cursor + offset)
                    nkptsZ.toNat 0 vs ws ht
                  exact ⟨⟨offset, rfl⟩, nkptsZ, vs, ws, by rfl, by rfl, by rfl, l1, l2⟩

/-- C10: if the reciprocal-lattice-and-weights delimiter never occurs at
or after the cursor, `KpointHeader.parse` raises an error (the not-found
ParseError on the path where the NKPTS line itself parses) rather than
returning a result lacking the k-point data; and every successful
`KpointHeader.parse` result carries nkpts together with ibzkpts and
kpt_weights whose lengths both equal nkpts. -/
theorem c10_kpoint_header (cursor : ℕ) (lines : List Line) :
    ((∀ l ∈ lines.drop cursor, hasSub kptDelim2 l = false) →
      ∃ e, KpointHeader.parse cursor lines = .error e) ∧
    (∀ d : Dict, KpointHeader.parse cursor lines = .ok d →
      ∃ (nk : ℤ) (vs : List Vec3) (ws : List ℚ),
        dictGet d "nkpts" = some (.intV nk) ∧
        dictGet d "ibzkpts" = some (.vecsV vs) ∧
        dictGet d "kpt_weights" = some (.ratsV ws) ∧
        vs.length = nk.toNat ∧ ws.length = nk.toNat) := by
  constructor
  · intro hno
    cases hres : KpointHeader.parse cursor lines with
    | error e => exact ⟨e, rfl⟩
    | ok d =>
      obtain ⟨⟨offset, hfd⟩, _⟩ := kpointHeader_parse_ok hres
      rw [findDelim_none kptDelim2 (lines.drop cursor) hno] at hfd
      cases hfd
  · intro d h
    exact (kpointHeader_parse_ok h).2

/-- Witness for C10: a stream holding a parseable NKPTS line but no
reciprocal-lattice delimiter, and the successful-parse invariant
instantiated on a complete two-line header fragment. -/
theorem c10_witness :
    (∃ e, KpointHeader.parse 0
      ["   k-points           NKPTS =      1   number of bands    NBANDS=      8".data] =
        .error e) ∧
    (∃ (nk : ℤ) (vs : List Vec3) (ws : List ℚ),
      dictGet [("nkpts", Val.intV 1), ("nbands", Val.intV 8),
          ("ibzkpts", Val.vecsV [(0, 0, 0)]), ("kpt_weights", Val.ratsV [1])]
        "nkpts" = some (.intV nk) ∧
      dictGet [("nkpts", Val.intV 1), ("nbands", Val.intV 8),
          ("ibzkpts", Val.vecsV [(0, 0, 0)]), ("kpt_weights", Val.ratsV [1])]
        "ibzkpts" = some (.vecsV vs) ∧
      dictGet [("nkpts", Val.intV 1), ("nbands", Val.intV 8),
          ("ibzkpts", Val.vecsV [(0, 0, 0)]), ("kpt_weights", Val.ratsV [1])]
        "kpt_weights" = some (.ratsV ws) ∧
      vs.length = nk.toNat ∧ ws.length = nk.toNat) :=
  ⟨(c10_kpoint_header 0
      ["   k-points           NKPTS =      1   number of bands    NBANDS=      8".data]).1
      (by decide),
   (c10_kpoint_header 0
      ["   k-points           NKPTS =      1   number of bands    NBANDS=      8".data,
       " k-points in reciprocal lattice and weights: K-points          ".data,
       "  0.00000000  0.00000000  0.00000000       1.000".data]).2 _ (by rfl)⟩

/-- A demonstration well-formed chunk: the SCF delimiter line followed by
exactly four energy-block continuation lines. -/
def demoChunk : List Line :=
  [scfDelim, "  ---------------".data, "".data,
   "  free  energy   TOTEN  =       -67.92 eV".data,
   "".data]

/-- C1: an input stream made of a header (lines free of the iteration
marker, then a marker line) that builds into a header dict, N
well-formed chunks, and a trailing portion that is either empty (no
trailing garbage) or a truncated chunk (cut before its convergence
delimiter, or inside the four continuation lines), makes the chunk
iterator yield exactly the N chunks, in stream order, each sharing the
built header, and terminate without error; with an empty trailing
portion this is exactly N records, with a truncated final chunk exactly
N records out of N+1. -/
theorem c1_chunk_segmentation (hbody : List Line) (hline : Line)
    (header : Dict) (cs : List (List Line)) (t : List Line)
    (h1 : ∀ l ∈ hbody, hasIter l = false) (h2 : hasIter hline = true)
    (hh : OutcarHeaderParser.buildFromLines (hbody ++ [hline]) = .ok header)
    (h3 : ∀ c ∈ cs, wfChunk c) (h4 : truncTail t) :
    outcarchunks (hbody ++ hline :: (cs.flatten ++ t)) =
      .ok (header, cs) := by
  unfold outcarchunks
  rw [build_header_append hbody hline (cs.flatten ++ t) h1 h2]
  simp only [hh, outcarchunksFrom_flatten cs t h3 h4]

theorem demoChunk_wf : wfChunk demoChunk :=
  ⟨[], scfDelim,
   ["  ---------------".data, "".data,
    "  free  energy   TOTEN  =       -67.92 eV".data, "".data],
   rfl, by simp, by decide, rfl⟩

theorem demoChunks_wf : ∀ c ∈ [demoChunk, demoChunk], wfChunk c := by
  intro c hc
  rcases List.mem_cons.mp hc with h | h
  · rw [h]; exact demoChunk_wf
  · rcases List.mem_cons.mp h with h2 | h2
    · rw [h2]; exact demoChunk_wf
    · cases h2

/-- Header-body lines for the C1 witness: one POTCAR species line and
one ions-per-type line, so the default header extractors build a real
header (species Ni, ion count 2). -/
def demoHeaderBody : List Line :=
  ["POTCAR: PAW_PBE Ni 02Aug2007".data,
   "   ions per type =               2".data]

/-- The header the C1 witness stream builds into: two Ni atoms, no
constraint. -/
def demoHeader : Dict :=
  [("symbols", .strsV ["Ni", "Ni"]), ("natoms", .intV 2), ("constraint", .noneV)]

/-- Witness for C1: a stream whose header genuinely builds (POTCAR +
ions-per-type lines, then the iteration marker) followed by two chunks
and no trailing garbage yields both chunks with the built header; the
same stream with a third, truncated chunk (its delimiter line followed
by only one continuation line) still yields exactly the two complete
chunks and terminates without error. -/
theorem c1_witness :
    outcarchunks (demoHeaderBody ++ " Iteration  1".data ::
        ([demoChunk, demoChunk].flatten ++ [])) =
      .ok (demoHeader, [demoChunk, demoChunk]) ∧
    outcarchunks (demoHeaderBody ++ " Iteration  1".data ::
        ([demoChunk, demoChunk].flatten ++ ["x".data, scfDelim, "y".data])) =
      .ok (demoHeader, [demoChunk, demoChunk]) :=
  ⟨c1_chunk_segmentation demoHeaderBody " Iteration  1".data demoHeader
      [demoChunk, demoChunk] []
      (by decide) (by decide) (by rfl) demoChunks_wf (Or.inl (by simp)),
   c1_chunk_segmentation demoHeaderBody " Iteration  1".data demoHeader
      [demoChunk, demoChunk] ["x".data, scfDelim, "y".data]
      (by decide) (by decide) (by rfl) demoChunks_wf
      (Or.inr ⟨["x".data], scfDelim, ["y".data], rfl, by decide, by decide, by decide⟩)⟩

end VaspOutcar
